import Mathlib

/-!
Shallow embedding of the recommendation engine of
`Music_Recommender_System.py` (song catalog lookup, seed aggregation,
two-stage scaling, distance ranking, filtered selection), together with
theorems checking the natural-language specification against it.

Modelling conventions:
* numeric values are exact rationals (`ℚ`); every IEEE float is a rational,
  and none of the checked properties depends on rounding;
* the pandas `DataFrame` of songs is a `List Song`;
* fallible steps (sklearn shape validation, `data.iloc[i]` out of range,
  `pd.DataFrame([])[metadata_cols]` raising `KeyError`) are an
  `Except RecErr _`;
* `np.argsort` is modelled with `List.insertionSort` on the squared
  Euclidean distance.  `Real.sqrt` is strictly monotone, so sorting by the
  squared distance yields exactly the ascending-Euclidean-distance order;
  among *equal* distances numpy's quicksort may pick another (still
  deterministic) order, and no theorem below depends on the tie order.
-/

/-- Error outcomes of the Python code paths: sklearn/scipy shape validation
(`ValueError`), `data.iloc[i]` with `i` out of range (`IndexError`), and
column selection on an empty `DataFrame` (`KeyError`). -/
inductive RecErr where
  | shapeError
  | indexError
  | keyError
deriving DecidableEq

/-- One row of the catalog `DataFrame`: identity columns plus the numeric
feature columns `number_cols` in their canonical order. -/
structure Song where
  name : String
  artists : String
  year : Int
  features : List ℚ
deriving DecidableEq

/-- Default row used only as the `List.getD` fallback in statements. -/
def defaultSong : Song := { name := "", artists := "", year := 0, features := [] }

/-- Metadata projection `['name', 'artists', 'year']` returned to the caller
(line 63 of the source). -/
structure SongMeta where
  name : String
  artists : String
  year : Int
deriving DecidableEq

/-- Projection of a catalog row to its metadata columns. -/
def song_meta (s : Song) : SongMeta := { name := s.name, artists := s.artists, year := s.year }

/-- The list of numeric feature columns (source lines 12–13). -/
def number_cols : List String :=
  ["valence", "year", "acousticness", "danceability", "duration_ms", "energy", "explicit",
   "instrumentalness", "key", "liveness", "loudness", "mode", "popularity", "speechiness", "tempo"]

/-- ASCII case-folding of one character, as Python's `str.lower()` does on
the ASCII range (`'A'..'Z'` shifted by 32, all other characters kept). -/
def char_lower (c : Char) : Char :=
  if 'A' ≤ c ∧ c ≤ 'Z' then Char.ofNat (c.toNat + 32) else c

/-- Python's `str.lower()`, modelled on the ASCII range.  (Python also folds
non-ASCII letters; every property checked here only exercises ASCII names,
and the model keeps non-ASCII characters unchanged.) -/
def str_lower (s : String) : String := String.mk (s.data.map char_lower)

/-- `get_song_data(name, data)` (source lines 16–20):
`data[data['name'].str.lower() == name].iloc[0]`, `None` on `IndexError`.
The *stored* names are lowercased; the input `name` is compared as given.
`List.find?` returns the first row whose lowercased name equals the input,
exactly as `.iloc[0]` picks the first row of the boolean-filtered frame. -/
def get_song_data (name : String) (data : List Song) : Option Song :=
  data.find? fun s => str_lower s.name == name

/-- The accumulation loop of `get_mean_vector` (source lines 24–31): resolve
each seed in order and collect `song_data[number_cols].values`; the whole
computation is `None` as soon as one seed fails to resolve. -/
def get_song_vectors (song_list : List String) (data : List Song) :
    Option (List (List ℚ)) :=
  match song_list with
  | [] => some []
  | song :: rest =>
    match get_song_data song data with
    | none => none
    | some song_data =>
      (get_song_vectors rest data).map fun vectors => song_data.features :: vectors

/-- Componentwise sum of the rows of a matrix (the reduction inside
`np.mean(song_matrix, axis=0)`).  On the empty matrix it is `[]`,
mirroring that `np.array([])` has no columns to average. -/
def matrix_col_sum : List (List ℚ) → List ℚ
  | [] => []
  | [v] => v
  | v :: vs => List.zipWith (· + ·) v (matrix_col_sum vs)

/-- `np.mean(song_matrix, axis=0)` for a matrix given as its list of rows.
For the empty matrix the numpy result is a dimensionless `nan` scalar, not a
15-vector; it is modelled as the empty vector `[]`, which — like the numpy
value — fails the scaler's 15-feature shape validation downstream. -/
def np_mean_axis0 (rows : List (List ℚ)) : List ℚ :=
  (matrix_col_sum rows).map fun x => x / (rows.length : ℚ)

/-- `get_mean_vector(song_list, data)` (source lines 23–33). -/
def get_mean_vector (song_list : List String) (data : List Song) : Option (List ℚ) :=
  (get_song_vectors song_list data).map np_mean_axis0

/-- Fitted `MinMaxScaler` state: per-column `scale_` and `min_` attributes,
exactly the two arrays sklearn's `transform` uses (`X * scale_ + min_`). -/
structure MinMaxScalerState where
  scale_ : List ℚ
  min_ : List ℚ
deriving DecidableEq

/-- `min_max_scaler.transform` on a single vector: componentwise
`x * scale_ + min_`. -/
def minMaxTransform (mm : MinMaxScalerState) (x : List ℚ) : List ℚ :=
  List.zipWith (fun p xi => xi * p.1 + p.2) (mm.scale_.zip mm.min_) x

/-- Fitted `StandardScaler` state: per-column `mean_` and `scale_`
attributes used by `transform` (`(X - mean_) / scale_`).  After sklearn's
zero-handling `scale_` entries are never `0`. -/
structure StandardScalerState where
  mean_ : List ℚ
  scale_ : List ℚ
deriving DecidableEq

/-- `standard_scaler.transform` on a single vector: componentwise
`(x - mean_) / scale_`. -/
def standardTransform (ss : StandardScalerState) (x : List ℚ) : List ℚ :=
  List.zipWith (fun p xi => (xi - p.1) / p.2) (ss.mean_.zip ss.scale_) x

/-- Squared Euclidean distance between two vectors (the radicand of
scipy's `cdist(..., 'euclidean')` entry). -/
def sq_euclidean (u v : List ℚ) : ℚ :=
  (List.zipWith (fun a b => (a - b) ^ 2) u v).sum

/-- Euclidean distance, as computed by `cdist(..., 'euclidean')`. -/
noncomputable def euclidean (u v : List ℚ) : ℝ :=
  Real.sqrt ((sq_euclidean u v : ℚ) : ℝ)

/-- Distance key of catalog row `i` relative to a query centre `c`. -/
def dist_key (c : List ℚ) (scaled : List (List ℚ)) (i : Nat) : ℚ :=
  sq_euclidean c (scaled.getD i [])

/-- `np.argsort(distances)[0]` (source line 52): the indices
`0, …, len(scaled)-1` sorted by ascending distance to the centre.  Sorting
by the squared distance gives the same ascending order as sorting by the
Euclidean distance, `Real.sqrt` being monotone. -/
def argsort_index (c : List ℚ) (scaled : List (List ℚ)) : List Nat :=
  List.insertionSort (fun i j => dist_key c scaled i ≤ dist_key c scaled j)
    (List.range scaled.length)

/-- The selection loop (source lines 55–61): walk the sorted indices, skip a
row whose `name` is (by exact string comparison) among the seed names or
among the names already selected, append otherwise, and stop as soon as
`len(rec_songs) == n_recommendations`.  `data.iloc[i]` with an out-of-range
`i` is an `IndexError`. -/
def collect_rec_songs (data : List Song) (seed_names : List String)
    (n_recommendations : Int) :
    List Nat → List Song → Except RecErr (List Song)
  | [], rec_songs => Except.ok rec_songs
  | i :: rest, rec_songs =>
    match data[i]? with
    | none => Except.error RecErr.indexError
    | some song =>
      if song.name ∉ seed_names ∧ song.name ∉ rec_songs.map Song.name then
        let rec_songs' := rec_songs ++ [song]
        if (rec_songs'.length : Int) = n_recommendations then Except.ok rec_songs'
        else collect_rec_songs data seed_names n_recommendations rest rec_songs'
      else collect_rec_songs data seed_names n_recommendations rest rec_songs

/-- `pd.DataFrame(rec_songs)[metadata_cols].to_dict(orient='records')`
(source line 63).  `pd.DataFrame([])` has no columns at all, so selecting
`['name', 'artists', 'year']` on it raises `KeyError`; on a non-empty list
of rows it projects each row to its metadata. -/
def to_metadata_records (rec_songs : List Song) : Except RecErr (List SongMeta) :=
  match rec_songs with
  | [] => Except.error RecErr.keyError
  | _ :: _ => Except.ok (rec_songs.map song_meta)

/-- The state fixed at startup (source lines 66–71): the two fitted scalers
and the pre-scaled catalog matrix `scaled_normalized_data`. -/
structure FittedState where
  min_max_scaler : MinMaxScalerState
  standard_scaler : StandardScalerState
  scaled_normalized_data : List (List ℚ)
deriving DecidableEq

/-- The normalisation of the seed centre (source lines 38–48):
`get_mean_vector`, then `min_max_scaler.transform`, then
`standard_scaler.transform`, in that order. -/
def scaled_normalized_song_center (seed_songs : List String) (data : List Song)
    (st : FittedState) : Option (List ℚ) :=
  (get_mean_vector seed_songs data).map fun song_center =>
    standardTransform st.standard_scaler (minMaxTransform st.min_max_scaler song_center)

/-- `recommend_songs(seed_songs, data, n_recommendations)`
(source lines 36–63).  Seeds are the `'name'` values of the seed dicts.
The three `shapeError` guards model sklearn's/scipy's feature-count
validation of `transform` and `cdist` (a 15-feature scaler rejects a centre
of any other width, and `cdist` rejects mismatched column counts). -/
def recommend_songs (seed_songs : List String) (data : List Song)
    (st : FittedState) (n_recommendations : Int) : Except RecErr (List SongMeta) :=
  match get_mean_vector seed_songs data with
  | none => Except.ok []
  | some song_center =>
    if song_center.length ≠ st.min_max_scaler.scale_.length then
      Except.error RecErr.shapeError
    else
      let normalized_song_center := minMaxTransform st.min_max_scaler song_center
      if normalized_song_center.length ≠ st.standard_scaler.mean_.length then
        Except.error RecErr.shapeError
      else
        let scaled_center := standardTransform st.standard_scaler normalized_song_center
        if ¬ (st.scaled_normalized_data.all fun row => row.length = scaled_center.length) then
          Except.error RecErr.shapeError
        else
          match collect_rec_songs data seed_songs n_recommendations
              (argsort_index scaled_center st.scaled_normalized_data) [] with
          | Except.error e => Except.error e
          | Except.ok rec_songs => to_metadata_records rec_songs

/-- The arithmetic per-column mean, stated the way the specification words
it: entry `j` is the mean of the `j`-th components of all rows.  Used to
compare the code's `np.mean(song_matrix, axis=0)` against the spec. -/
def mean_by_column (rows : List (List ℚ)) (width : Nat) : List ℚ :=
  (List.range width).map fun j =>
    ((rows.map fun r => r.getD j 0).sum) / (rows.length : ℚ)

/-- Column `j` of a matrix given as its list of rows. -/
def column (rows : List (List ℚ)) (j : Nat) : List ℚ :=
  rows.map fun r => r.getD j 0

/-- Minimum of a list of rationals (`np.min` over a column). -/
def list_min : List ℚ → ℚ
  | [] => 0
  | x :: xs => xs.foldl min x

/-- Maximum of a list of rationals (`np.max` over a column). -/
def list_max : List ℚ → ℚ
  | [] => 0
  | x :: xs => xs.foldl max x

/-- sklearn's `_handle_zeros_in_scale`: a per-column scale of `0` is
replaced by `1` before it is ever divided by. -/
def handle_zeros (s : ℚ) : ℚ := if s = 0 then 1 else s

/-- `data_max_ - data_min_` of `MinMaxScaler.fit` for column `j`. -/
def mm_fit_data_range (rows : List (List ℚ)) (j : Nat) : ℚ :=
  list_max (column rows j) - list_min (column rows j)

/-- `MinMaxScaler.scale_` for column `j` with the default feature range
`(0, 1)`: `1 / handle_zeros(data_max_ - data_min_)` (source line 66–67). -/
def mm_fit_scale (rows : List (List ℚ)) (j : Nat) : ℚ :=
  1 / handle_zeros (mm_fit_data_range rows j)

/-- `MinMaxScaler.min_` for column `j`: `0 - data_min_ * scale_`. -/
def mm_fit_min (rows : List (List ℚ)) (j : Nat) : ℚ :=
  0 - list_min (column rows j) * mm_fit_scale rows j

/-- Value of column `j` after the fitted min-max stage:
`x * scale_ + min_`. -/
def mm_fit_value (rows : List (List ℚ)) (j : Nat) (x : ℚ) : ℚ :=
  x * mm_fit_scale rows j + mm_fit_min rows j

/-- Column `j` of `normalized_data = min_max_scaler.fit_transform(...)`
(source line 67). -/
def normalized_column (rows : List (List ℚ)) (j : Nat) : List ℚ :=
  (column rows j).map (mm_fit_value rows j)

/-- `StandardScaler.mean_` for column `j`, fitted on the min-max-scaled
catalog (source lines 70–71). -/
def std_fit_mean (rows : List (List ℚ)) (j : Nat) : ℚ :=
  (normalized_column rows j).sum / ((normalized_column rows j).length : ℚ)

/-- `StandardScaler.var_` for column `j` (population variance, `ddof = 0`). -/
def std_fit_var (rows : List (List ℚ)) (j : Nat) : ℚ :=
  ((normalized_column rows j).map fun x => (x - std_fit_mean rows j) ^ 2).sum /
    ((normalized_column rows j).length : ℚ)

/-- `StandardScaler.scale_` for column `j`:
`_handle_zeros_in_scale(sqrt(var_))`, so a zero standard deviation is
replaced by `1` before dividing. -/
noncomputable def std_fit_scale (rows : List (List ℚ)) (j : Nat) : ℝ :=
  if Real.sqrt ((std_fit_var rows j : ℚ) : ℝ) = 0 then 1
  else Real.sqrt ((std_fit_var rows j : ℚ) : ℝ)

/-- Value of column `j` of a catalog row after both fitted stages
(min-max scaling, then standardisation), as `scaled_normalized_data`
holds it (source lines 66–71). -/
noncomputable def two_stage_value (rows : List (List ℚ)) (j : Nat) (x : ℚ) : ℝ :=
  ((mm_fit_value rows j x - std_fit_mean rows j : ℚ) : ℝ) / std_fit_scale rows j

deriving instance DecidableEq for Except

/-- Concrete 15-component feature vector used by the concrete catalogs:
first feature `a`, the other fourteen `0`. -/
def f15 (a : ℚ) : List ℚ := a :: List.replicate 14 0

/-- Identity fitted state over 15 columns (`scale_ = 1`, `min_ = 0`,
`mean_ = 0`, std `scale_ = 1`) with the given pre-scaled matrix; with it the
scaled space coincides with the raw feature space, which keeps the concrete
runs below readable. -/
def idFitted (scaled : List (List ℚ)) : FittedState :=
  { min_max_scaler := { scale_ := List.replicate 15 1, min_ := List.replicate 15 0 },
    standard_scaler := { mean_ := List.replicate 15 0, scale_ := List.replicate 15 1 },
    scaled_normalized_data := scaled }

/-- Concrete catalog: one song whose stored name is capitalised, one other
song. -/
def catMixedCase : List Song :=
  [ { name := "Dynamite", artists := "a1", year := 2020, features := f15 0 },
    { name := "other", artists := "a2", year := 2021, features := f15 1 } ]

/-- Fitted state for `catMixedCase`. -/
def stMixedCase : FittedState := idFitted (catMixedCase.map Song.features)

/-- Concrete catalog: two songs whose names differ only by letter case,
plus a seed song. -/
def catCase2 : List Song :=
  [ { name := "seedsong", artists := "s", year := 2000, features := f15 0 },
    { name := "Hello", artists := "h1", year := 2001, features := f15 1 },
    { name := "HELLO", artists := "h2", year := 2002, features := f15 2 } ]

/-- Fitted state for `catCase2`. -/
def stCase2 : FittedState := idFitted (catCase2.map Song.features)

/-- Concrete catalog with a single song. -/
def catSingle : List Song :=
  [ { name := "abc", artists := "a", year := 1999, features := f15 0 } ]

/-- Fitted state for `catSingle`. -/
def stSingle : FittedState := idFitted (catSingle.map Song.features)

section

attribute [local semireducible] Rat.add Rat.sub Rat.mul Rat.inv

/-- Invariant of the selection loop: once the accumulator is strictly below
the requested count, the loop never returns more than `n` songs (the loop
breaks exactly when the count is reached). -/
theorem collect_length_le {data : List Song} {seed_names : List String} {n : Int} :
    ∀ {idx : List Nat} {acc out : List Song},
      collect_rec_songs data seed_names n idx acc = Except.ok out →
      (acc.length : Int) < n → (out.length : Int) ≤ n
  | [], acc, out, h, hlt => by
    unfold collect_rec_songs at h
    cases h
    exact le_of_lt hlt
  | i :: rest, acc, out, h, hlt => by
    unfold collect_rec_songs at h
    cases hdi : data[i]? with
    | none => rw [hdi] at h; cases h
    | some song =>
      rw [hdi] at h
      dsimp only at h
      split at h
      · split at h
        next hlen =>
          cases h
          exact le_of_eq hlen
        next hlen =>
          refine collect_length_le h ?_
          have hl : ((acc ++ [song]).length : Int) = (acc.length : Int) + 1 := by simp
          omega
      · exact collect_length_le h hlt

/-- Invariant of the selection loop: a song whose name is among the seed
names (by exact string comparison) is never added. -/
theorem collect_names_not_seed {data : List Song} {seed_names : List String} {n : Int} :
    ∀ {idx : List Nat} {acc out : List Song},
      collect_rec_songs data seed_names n idx acc = Except.ok out →
      (∀ s ∈ acc, s.name ∉ seed_names) → ∀ s ∈ out, s.name ∉ seed_names
  | [], acc, out, h, hacc => by
    unfold collect_rec_songs at h
    cases h
    exact hacc
  | i :: rest, acc, out, h, hacc => by
    unfold collect_rec_songs at h
    cases hdi : data[i]? with
    | none => rw [hdi] at h; cases h
    | some song =>
      rw [hdi] at h
      dsimp only at h
      split at h
      next hguard =>
        have hacc' : ∀ s ∈ acc ++ [song], s.name ∉ seed_names := by
          intro s hs
          rcases List.mem_append.mp hs with hs | hs
          · exact hacc s hs
          · rcases List.mem_singleton.mp hs with rfl
            exact hguard.1
        split at h
        · cases h; exact hacc'
        · exact collect_names_not_seed h hacc'
      · exact collect_names_not_seed h hacc

/-- Invariant of the selection loop: the selected names stay pairwise
distinct (a candidate equal to an already selected name is skipped). -/
theorem collect_names_nodup {data : List Song} {seed_names : List String} {n : Int} :
    ∀ {idx : List Nat} {acc out : List Song},
      collect_rec_songs data seed_names n idx acc = Except.ok out →
      (acc.map Song.name).Nodup → (out.map Song.name).Nodup
  | [], acc, out, h, hacc => by
    unfold collect_rec_songs at h
    cases h
    exact hacc
  | i :: rest, acc, out, h, hacc => by
    unfold collect_rec_songs at h
    cases hdi : data[i]? with
    | none => rw [hdi] at h; cases h
    | some song =>
      rw [hdi] at h
      dsimp only at h
      split at h
      next hguard =>
        have hacc' : ((acc ++ [song]).map Song.name).Nodup := by
          rw [List.map_append]
          simp only [List.map_cons, List.map_nil]
          rw [List.nodup_append]
          refine ⟨hacc, List.nodup_singleton _, ?_⟩
          intro a ha hb
          rcases List.mem_singleton.mp hb with rfl
          exact hguard.2 ha
        split at h
        · cases h; exact hacc'
        · exact collect_names_nodup h hacc'
      · exact collect_names_nodup h hacc

/-- The selection loop returns the accumulator followed by the rows of a
subsequence of the visited index list, in visiting order. -/
theorem collect_picked {data : List Song} {seed_names : List String} {n : Int} :
    ∀ {idx : List Nat} {acc out : List Song},
      collect_rec_songs data seed_names n idx acc = Except.ok out →
      ∃ picked : List Nat, picked.Sublist idx ∧
        (∀ i ∈ picked, i < data.length) ∧
        out = acc ++ picked.map fun i => data.getD i defaultSong
  | [], acc, out, h => by
    unfold collect_rec_songs at h
    cases h
    exact ⟨[], List.Sublist.refl _, by simp, by simp⟩
  | i :: rest, acc, out, h => by
    unfold collect_rec_songs at h
    cases hdi : data[i]? with
    | none => rw [hdi] at h; cases h
    | some song =>
      rw [hdi] at h
      dsimp only at h
      have hilt : i < data.length := by
        rcases List.getElem?_eq_some_iff.mp hdi with ⟨hl, _⟩
        exact hl
      have hdg : data.getD i defaultSong = song := by
        rw [List.getD_eq_getElem?_getD, hdi]
        rfl
      split at h
      · split at h
        · cases h
          exact ⟨[i], (List.nil_sublist rest).cons₂ i, by simpa using hilt, by simp [hdi]⟩
        · rcases collect_picked h with ⟨picked, hsub, hlt, hout⟩
          refine ⟨i :: picked, hsub.cons₂ i, ?_, ?_⟩
          · intro j hj
            rcases List.mem_cons.mp hj with rfl | hj
            · exact hilt
            · exact hlt j hj
          · rw [hout, List.map_cons, hdg]
            simp
      · rcases collect_picked h with ⟨picked, hsub, hlt, hout⟩
        exact ⟨picked, hsub.cons i, hlt, hout⟩

/-- With a non-positive requested count the break `len(rec_songs) == n`
never fires, so the loop keeps every name it ever selects and visits every
index: each visited non-seed name ends up in the output. -/
theorem collect_cover {data : List Song} {seed_names : List String} {n : Int} (hn : n ≤ 0) :
    ∀ {idx : List Nat} {acc out : List Song},
      collect_rec_songs data seed_names n idx acc = Except.ok out →
      (∀ a ∈ acc.map Song.name, a ∈ out.map Song.name) ∧
      (∀ i ∈ idx, ∀ song, data[i]? = some song → song.name ∉ seed_names →
        song.name ∈ out.map Song.name)
  | [], acc, out, h => by
    unfold collect_rec_songs at h
    cases h
    exact ⟨fun a ha => ha, by simp⟩
  | i :: rest, acc, out, h => by
    unfold collect_rec_songs at h
    cases hdi : data[i]? with
    | none => rw [hdi] at h; cases h
    | some song =>
      rw [hdi] at h
      dsimp only at h
      split at h
      next hguard =>
        split at h
        next hlen =>
          exfalso
          have : ((acc ++ [song]).length : Int) = (acc.length : Int) + 1 := by simp
          omega
        next hlen =>
          rcases collect_cover hn h with ⟨hmono, hrest⟩
          have hsongmem : song.name ∈ out.map Song.name := by
            refine hmono song.name ?_
            simp
          refine ⟨?_, ?_⟩
          · intro a ha
            refine hmono a ?_
            rw [List.map_append]
            exact List.mem_append_left _ ha
          · intro j hj s hs hns
            rcases List.mem_cons.mp hj with rfl | hj
            · rw [hdi] at hs
              cases hs
              exact hsongmem
            · exact hrest j hj s hs hns
      next hguard =>
        rcases collect_cover hn h with ⟨hmono, hrest⟩
        refine ⟨hmono, ?_⟩
        intro j hj s hs hns
        rcases List.mem_cons.mp hj with rfl | hj
        · rw [hdi] at hs
          cases hs
          have : song.name ∈ List.map Song.name acc := by
            rcases Decidable.not_and_iff_or_not.mp hguard with hc | hc
            · exact absurd hns (by simpa using hc)
            · simpa using Decidable.not_not.mp hc
          exact hmono _ this
        · exact hrest j hj s hs hns

/-- The argsort output is pairwise ordered by non-decreasing (squared)
distance to the query centre. -/
theorem argsort_index_sorted (c : List ℚ) (scaled : List (List ℚ)) :
    (argsort_index c scaled).Pairwise
      (fun i j => dist_key c scaled i ≤ dist_key c scaled j) := by
  haveI : IsTotal Nat fun i j => dist_key c scaled i ≤ dist_key c scaled j :=
    ⟨fun a b => le_total _ _⟩
  haveI : IsTrans Nat fun i j => dist_key c scaled i ≤ dist_key c scaled j :=
    ⟨fun a b d h1 h2 => le_trans h1 h2⟩
  exact List.sorted_insertionSort _ _

/-- The argsort output is a permutation of `range(len(scaled))`. -/
theorem argsort_index_perm (c : List ℚ) (scaled : List (List ℚ)) :
    (argsort_index c scaled).Perm (List.range scaled.length) :=
  List.perm_insertionSort _ _

/-- Inversion of a successful run of `recommend_songs`: either every seed
resolution failed (empty result), or the mean vector resolved, both scaler
stages accepted the centre, and the result is the metadata projection of a
non-empty selection from the ranked index list. -/
theorem recommend_songs_ok_elim {seeds : List String} {data : List Song} {st : FittedState}
    {n : Int} {res : List SongMeta}
    (h : recommend_songs seeds data st n = Except.ok res) :
    (res = [] ∧ get_mean_vector seeds data = none) ∨
    ∃ c out,
      get_mean_vector seeds data = some c ∧
      collect_rec_songs data seeds n
        (argsort_index
          (standardTransform st.standard_scaler (minMaxTransform st.min_max_scaler c))
          st.scaled_normalized_data) [] = Except.ok out ∧
      out ≠ [] ∧
      res = out.map song_meta := by
  unfold recommend_songs at h
  cases hgm : get_mean_vector seeds data with
  | none =>
    rw [hgm] at h
    dsimp only at h
    cases h
    exact Or.inl ⟨rfl, rfl⟩
  | some c =>
    rw [hgm] at h
    dsimp only at h
    right
    split at h
    · cases h
    · split at h
      · cases h
      · split at h
        · cases h
        · cases hcol : collect_rec_songs data seeds n
              (argsort_index
                (standardTransform st.standard_scaler (minMaxTransform st.min_max_scaler c))
                st.scaled_normalized_data) [] with
          | error e => rw [hcol] at h; cases h
          | ok out =>
            rw [hcol] at h
            refine ⟨c, out, rfl, hcol, ?_, ?_⟩
            · intro hout
              rw [hout] at h
              unfold to_metadata_records at h
              cases h
            · cases out with
              | nil => unfold to_metadata_records at h; cases h
              | cons s rest =>
                unfold to_metadata_records at h
                cases h
                rfl

/-- C1 (amended): for `n_recommendations ≥ 1`, a successful run of
`recommend_songs` returns at most `n_recommendations` records, and no
returned record's name is *exactly* equal to a seed name (the exclusion at
line 58 compares raw stored names against the seed strings, with no case
folding). -/
theorem recommend_songs_length_le_and_excludes_seeds
    {seeds : List String} {data : List Song} {st : FittedState} {n : Int}
    {res : List SongMeta} (hn : 1 ≤ n)
    (h : recommend_songs seeds data st n = Except.ok res) :
    (res.length : Int) ≤ n ∧ ∀ r ∈ res, r.name ∉ seeds := by
  rcases recommend_songs_ok_elim h with ⟨rfl, _⟩ | ⟨c, out, hgm, hcol, hne, rfl⟩
  · refine ⟨?_, by simp⟩
    simp only [List.length_nil, Int.natCast_zero]
    omega
  · constructor
    · rw [List.length_map]
      refine collect_length_le hcol ?_
      simpa using hn
    · intro r hr
      rcases List.mem_map.mp hr with ⟨s, hs, rfl⟩
      exact collect_names_not_seed hcol (by simp) s hs

/-- C1 counterexample: with the seed `"dynamite"` resolving to the stored
song `"Dynamite"`, the seed song itself is returned (its stored name is not
case-insensitively excluded), and with `n = 0` the run returns two records
instead of at most zero. -/
theorem c1_counterexample :
    recommend_songs ["dynamite"] catMixedCase stMixedCase 1 =
      Except.ok [{ name := "Dynamite", artists := "a1", year := 2020 }] ∧
    str_lower "Dynamite" = "dynamite" ∧
    recommend_songs ["dynamite"] catMixedCase stMixedCase 0 =
      Except.ok [{ name := "Dynamite", artists := "a1", year := 2020 },
                 { name := "other", artists := "a2", year := 2021 }] :=
  ⟨by decide, by decide, by decide⟩

/-- C1 witness: the amended theorem applied to a concrete run. -/
theorem c1_witness :
    (([{ name := "Dynamite", artists := "a1", year := 2020 }] : List SongMeta).length : Int) ≤ 1 ∧
    ∀ r ∈ ([{ name := "Dynamite", artists := "a1", year := 2020 }] : List SongMeta),
      r.name ∉ ["dynamite"] :=
  @recommend_songs_length_le_and_excludes_seeds ["dynamite"] catMixedCase stMixedCase 1
    [{ name := "Dynamite", artists := "a1", year := 2020 }] (by decide) (by decide)

/-- One unresolvable seed makes the whole vector collection fail. -/
theorem get_song_vectors_eq_none {seeds : List String} {data : List Song}
    (h : ∃ s ∈ seeds, get_song_data s data = none) :
    get_song_vectors seeds data = none := by
  induction seeds with
  | nil => rcases h with ⟨s, hs, _⟩; cases hs
  | cons a rest ih =>
    rcases h with ⟨s, hs, hnone⟩
    unfold get_song_vectors
    rcases List.mem_cons.mp hs with rfl | hs
    · rw [hnone]
    · cases hda : get_song_data a data with
      | none => rfl
      | some sd =>
        rw [ih ⟨s, hs, hnone⟩]
        rfl

/-- C3: if at least one seed name has no catalog match, `recommend_songs`
returns the empty list (for every requested count and fitted state): the
first failed lookup makes `get_mean_vector` return `None` and line 42
returns `[]`. -/
theorem recommend_songs_unresolvable_seed_empty
    {seeds : List String} {data : List Song} (st : FittedState) (n : Int)
    (h : ∃ s ∈ seeds, get_song_data s data = none) :
    recommend_songs seeds data st n = Except.ok [] := by
  unfold recommend_songs get_mean_vector
  rw [get_song_vectors_eq_none h]
  rfl

/-- C3 witness: a resolvable seed plus an unknown one yields `[]`. -/
theorem c3_witness :
    recommend_songs ["dynamite", "unknown-song"] catMixedCase stMixedCase 3 = Except.ok [] :=
  recommend_songs_unresolvable_seed_empty stMixedCase 3
    ⟨"unknown-song", by decide, by decide⟩

/-- C7 (amended): the names of a successful result are pairwise distinct as
exact strings; the dedup comparison at line 58 is case-sensitive, so two
records whose names differ only by case can both be returned. -/
theorem recommend_songs_result_names_nodup
    {seeds : List String} {data : List Song} {st : FittedState} {n : Int}
    {res : List SongMeta}
    (h : recommend_songs seeds data st n = Except.ok res) :
    (res.map SongMeta.name).Nodup := by
  rcases recommend_songs_ok_elim h with ⟨rfl, _⟩ | ⟨c, out, hgm, hcol, hne, rfl⟩
  · simp
  · have hout : (out.map Song.name).Nodup := collect_names_nodup hcol (by simp)
    rw [List.map_map]
    exact hout

/-- C7 counterexample: the catalog stores `"Hello"` and `"HELLO"`; both are
selected into one result, although their names are equal after case
folding — the selection does not compare case-insensitively. -/
theorem c7_counterexample :
    recommend_songs ["seedsong"] catCase2 stCase2 5 =
      Except.ok [{ name := "Hello", artists := "h1", year := 2001 },
                 { name := "HELLO", artists := "h2", year := 2002 }] ∧
    str_lower "Hello" = str_lower "HELLO" :=
  ⟨by decide, by decide⟩

/-- C7 witness: the amended theorem applied to a concrete run. -/
theorem c7_witness :
    (([{ name := "Hello", artists := "h1", year := 2001 },
       { name := "HELLO", artists := "h2", year := 2002 }] : List SongMeta).map
      SongMeta.name).Nodup :=
  @recommend_songs_result_names_nodup ["seedsong"] catCase2 stCase2 5
    [{ name := "Hello", artists := "h1", year := 2001 },
     { name := "HELLO", artists := "h2", year := 2002 }] (by decide)

/-- C10: `recommend_songs` is a pure function of the seed list, the catalog,
the fitted scaler state and the requested count; two calls with equal
arguments return equal results (there is no hidden state or randomness in
the embedded computation). -/
theorem recommend_songs_deterministic
    (seeds₁ seeds₂ : List String) (data₁ data₂ : List Song)
    (st₁ st₂ : FittedState) (n₁ n₂ : Int)
    (hs : seeds₁ = seeds₂) (hd : data₁ = data₂) (hst : st₁ = st₂) (hn : n₁ = n₂) :
    recommend_songs seeds₁ data₁ st₁ n₁ = recommend_songs seeds₂ data₂ st₂ n₂ := by
  subst hs
  subst hd
  subst hst
  subst hn
  rfl

/-- C10 witness: determinism applied at a concrete call. -/
theorem c10_witness :
    recommend_songs ["dynamite"] catMixedCase stMixedCase 1 =
      recommend_songs ["dynamite"] catMixedCase stMixedCase 1 :=
  recommend_songs_deterministic _ _ _ _ _ _ _ _ rfl rfl rfl rfl

/-- C2: the records of a successful run are, in order, the metadata of
catalog rows at some index sequence along which the Euclidean distance
between the pre-scaled catalog row and the normalised seed centre is
non-decreasing (the selection walks `np.argsort` order and only skips). -/
theorem recommend_songs_sorted_by_distance
    {seeds : List String} {data : List Song} {st : FittedState} {n : Int}
    {res : List SongMeta} {c : List ℚ}
    (hc : get_mean_vector seeds data = some c)
    (h : recommend_songs seeds data st n = Except.ok res) :
    ∃ idxs : List Nat,
      (∀ i ∈ idxs, i < data.length) ∧
      res = idxs.map (fun i => song_meta (data.getD i defaultSong)) ∧
      idxs.Pairwise (fun i j =>
        euclidean (standardTransform st.standard_scaler (minMaxTransform st.min_max_scaler c))
            (st.scaled_normalized_data.getD i []) ≤
        euclidean (standardTransform st.standard_scaler (minMaxTransform st.min_max_scaler c))
            (st.scaled_normalized_data.getD j [])) := by
  rcases recommend_songs_ok_elim h with ⟨rfl, hnone⟩ | ⟨c', out, hgm, hcol, hne, rfl⟩
  · rw [hc] at hnone
    cases hnone
  · rw [hc] at hgm
    have hcc : c = c' := Option.some.inj hgm
    subst hcc
    rcases collect_picked hcol with ⟨picked, hsub, hlt, hout⟩
    refine ⟨picked, hlt, ?_, ?_⟩
    · rw [hout]
      simp [List.map_map]
    · have hsorted := argsort_index_sorted
        (standardTransform st.standard_scaler (minMaxTransform st.min_max_scaler c))
        st.scaled_normalized_data
      have hp := List.Pairwise.sublist hsub hsorted
      refine hp.imp ?_
      intro i j hij
      unfold euclidean
      refine Real.sqrt_le_sqrt ?_
      exact_mod_cast hij

/-- C2 witness: the ordering theorem applied to a concrete run. -/
theorem c2_witness :
    ∃ idxs : List Nat,
      (∀ i ∈ idxs, i < catMixedCase.length) ∧
      ([{ name := "Dynamite", artists := "a1", year := 2020 }] : List SongMeta) =
        idxs.map (fun i => song_meta (catMixedCase.getD i defaultSong)) ∧
      idxs.Pairwise (fun i j =>
        euclidean (standardTransform stMixedCase.standard_scaler
            (minMaxTransform stMixedCase.min_max_scaler (f15 0)))
            (stMixedCase.scaled_normalized_data.getD i []) ≤
        euclidean (standardTransform stMixedCase.standard_scaler
            (minMaxTransform stMixedCase.min_max_scaler (f15 0)))
            (stMixedCase.scaled_normalized_data.getD j [])) :=
  @recommend_songs_sorted_by_distance ["dynamite"] catMixedCase stMixedCase 1
    [{ name := "Dynamite", artists := "a1", year := 2020 }] (f15 0) (by decide) (by decide)

/-- On a non-empty matrix of uniform row length `w`, the columnwise sum has
length `w`. -/
theorem matrix_col_sum_length {w : Nat} :
    ∀ {rows : List (List ℚ)}, rows ≠ [] → (∀ r ∈ rows, r.length = w) →
      (matrix_col_sum rows).length = w
  | [], h, _ => absurd rfl h
  | [v], _, hl => hl v (by simp)
  | v :: v' :: vs, _, hl => by
    unfold matrix_col_sum
    rw [List.length_zipWith,
      matrix_col_sum_length (by simp) fun r hr => hl r (List.mem_cons_of_mem _ hr),
      hl v (by simp)]
    exact Nat.min_self w

/-- Entry `j` of the columnwise sum is the sum of the `j`-th entries of the
rows, for matrices of uniform row length. -/
theorem matrix_col_sum_getD {w : Nat} (j : Nat) (hj : j < w) :
    ∀ {rows : List (List ℚ)}, (∀ r ∈ rows, r.length = w) →
      (matrix_col_sum rows).getD j 0 = (rows.map fun r => r.getD j 0).sum
  | [], _ => by
    unfold matrix_col_sum
    simp
  | [v], hl => by
    unfold matrix_col_sum
    simp
  | v :: v' :: vs, hl => by
    have hvlen : v.length = w := hl v (by simp)
    have hrest : ∀ r ∈ v' :: vs, r.length = w := fun r hr => hl r (List.mem_cons_of_mem _ hr)
    have hlen2 : (matrix_col_sum (v' :: vs)).length = w :=
      matrix_col_sum_length (by simp) hrest
    have ih := matrix_col_sum_getD j hj hrest
    unfold matrix_col_sum
    rw [List.getD_eq_getElem?_getD, List.getElem?_zipWith,
      List.getElem?_eq_getElem (by omega), List.getElem?_eq_getElem (by omega)]
    dsimp only [Option.getD_some]
    rw [List.map_cons, List.sum_cons]
    rw [List.getD_eq_getElem?_getD, List.getElem?_eq_getElem (by omega)] at ih
    dsimp only [Option.getD_some] at ih
    rw [ih]
    congr 1
    rw [List.getD_eq_getElem?_getD, List.getElem?_eq_getElem (by omega)]
    rfl

/-- C4 core: `np.mean(song_matrix, axis=0)` agrees with the per-column
arithmetic mean the specification describes, on any non-empty matrix of
uniform row length. -/
theorem np_mean_axis0_eq_mean_by_column {rows : List (List ℚ)} {w : Nat}
    (hne : rows ≠ []) (hl : ∀ r ∈ rows, r.length = w) :
    np_mean_axis0 rows = mean_by_column rows w := by
  unfold np_mean_axis0 mean_by_column
  apply List.ext_getElem
  · simp [matrix_col_sum_length hne hl]
  · intro j h1 h2
    have hj : j < w := by
      simpa [matrix_col_sum_length hne hl] using h1
    have hsum := matrix_col_sum_getD j hj hl
    simp only [List.getElem_map, List.getElem_range]
    rw [List.getD_eq_getElem?_getD, List.getElem?_eq_getElem (by simpa using h1)] at hsum
    dsimp only [Option.getD_some] at hsum
    rw [hsum]

/-- A successful vector collection for a non-empty seed list is non-empty. -/
theorem get_song_vectors_ne_nil {seeds : List String} {data : List Song}
    {vecs : List (List ℚ)}
    (hv : get_song_vectors seeds data = some vecs) (hne : seeds ≠ []) :
    vecs ≠ [] := by
  cases seeds with
  | nil => exact absurd rfl hne
  | cons a rest =>
    unfold get_song_vectors at hv
    cases hda : get_song_data a data with
    | none => rw [hda] at hv; cases hv
    | some sd =>
      rw [hda] at hv
      cases hrest : get_song_vectors rest data with
      | none => rw [hrest] at hv; cases hv
      | some vs =>
        rw [hrest] at hv
        dsimp only [Option.map_some'] at hv
        cases hv
        simp

/-- C4: for a non-empty seed list whose vectors all resolve with the
catalog's 15 feature columns, the centre actually normalised by
`recommend_songs` (lines 38–48) is the per-column arithmetic mean of the
resolved seed vectors, passed through the fitted min-max stage and then the
fitted standardisation stage, in that order. -/
theorem scaled_center_is_standardized_minmaxed_mean
    {seeds : List String} {data : List Song} (st : FittedState)
    {vecs : List (List ℚ)}
    (hv : get_song_vectors seeds data = some vecs) (hne : seeds ≠ [])
    (hlen : ∀ v ∈ vecs, v.length = 15) :
    scaled_normalized_song_center seeds data st =
      some (standardTransform st.standard_scaler
        (minMaxTransform st.min_max_scaler (mean_by_column vecs 15))) := by
  have hvne : vecs ≠ [] := get_song_vectors_ne_nil hv hne
  unfold scaled_normalized_song_center get_mean_vector
  rw [hv]
  dsimp only [Option.map_some']
  rw [np_mean_axis0_eq_mean_by_column hvne hlen]

/-- C4 witness: the centre theorem applied to a concrete seed list. -/
theorem c4_witness :
    scaled_normalized_song_center ["dynamite"] catMixedCase stMixedCase =
      some (standardTransform stMixedCase.standard_scaler
        (minMaxTransform stMixedCase.min_max_scaler (mean_by_column [f15 0] 15))) :=
  scaled_center_is_standardized_minmaxed_mean stMixedCase (by decide) (by decide) (by decide)

/-- When every seed resolves, the vector collection succeeds. -/
theorem get_song_vectors_isSome {seeds : List String} {data : List Song}
    (h : ∀ s ∈ seeds, get_song_data s data ≠ none) :
    ∃ vecs, get_song_vectors seeds data = some vecs := by
  induction seeds with
  | nil => exact ⟨[], rfl⟩
  | cons a rest ih =>
    unfold get_song_vectors
    cases hda : get_song_data a data with
    | none => exact absurd hda (h a (by simp))
    | some sd =>
      rcases ih (fun s hs => h s (List.mem_cons_of_mem _ hs)) with ⟨vs, hvs⟩
      refine ⟨sd.features :: vs, ?_⟩
      rw [hvs]
      rfl

/-- C5 (amended): with an empty seed list `recommend_songs` does not return
an empty result — the degenerate mean has the wrong shape and the scaler's
validation fails the call; and with a resolvable seed set and a
non-positive requested count it returns *every* distinct non-seed catalog
name (the break `len == n` never fires), not an empty result. -/
theorem recommend_songs_empty_seeds_and_nonpositive_n
    {data : List Song} {st : FittedState} {seeds : List String} {n : Int}
    {res : List SongMeta}
    (hd : st.min_max_scaler.scale_.length ≠ 0)
    (hcover : st.scaled_normalized_data.length = data.length)
    (hn : n ≤ 0)
    (hres : ∀ s ∈ seeds, get_song_data s data ≠ none) :
    recommend_songs [] data st n = Except.error RecErr.shapeError ∧
    (recommend_songs seeds data st n = Except.ok res →
      ∀ s ∈ data, s.name ∉ seeds → s.name ∈ res.map SongMeta.name) := by
  constructor
  · unfold recommend_songs get_mean_vector get_song_vectors
    dsimp only [Option.map_some']
    rw [if_pos]
    simpa using Ne.symm hd
  · intro hok s hsdata hnotseed
    rcases recommend_songs_ok_elim hok with ⟨rfl, hnone⟩ | ⟨c, out, hgm, hcol, hne, rfl⟩
    · exfalso
      rcases get_song_vectors_isSome hres with ⟨vecs, hv⟩
      unfold get_mean_vector at hnone
      rw [hv] at hnone
      cases hnone
    · rcases collect_cover hn hcol with ⟨_, hcov⟩
      rcases List.getElem_of_mem hsdata with ⟨i, hi, hgi⟩
      have hidx : i ∈ argsort_index
          (standardTransform st.standard_scaler (minMaxTransform st.min_max_scaler c))
          st.scaled_normalized_data := by
        rw [(argsort_index_perm _ _).mem_iff, List.mem_range]
        omega
      have hmem := hcov i hidx s (by rw [List.getElem?_eq_getElem hi, hgi]) hnotseed
      rw [List.map_map]
      exact hmem

/-- C5 counterexample: `recommend([], 5)` raises a shape error instead of
returning an empty result, and `recommend(["other"], 0)` returns a
non-empty result (the remaining distinct catalog entry) instead of an
empty one. -/
theorem c5_counterexample :
    recommend_songs [] catMixedCase stMixedCase 5 = Except.error RecErr.shapeError ∧
    recommend_songs ["other"] catMixedCase stMixedCase 0 =
      Except.ok [{ name := "Dynamite", artists := "a1", year := 2020 }] :=
  ⟨by decide, by decide⟩

/-- C5 witness: the amended theorem applied at a concrete state. -/
theorem c5_witness :
    recommend_songs [] catMixedCase stMixedCase 0 = Except.error RecErr.shapeError ∧
    (recommend_songs ["other"] catMixedCase stMixedCase 0 =
        Except.ok [{ name := "Dynamite", artists := "a1", year := 2020 }] →
      ∀ s ∈ catMixedCase, s.name ∉ ["other"] →
        s.name ∈ ([{ name := "Dynamite", artists := "a1", year := 2020 }] :
          List SongMeta).map SongMeta.name) :=
  @recommend_songs_empty_seeds_and_nonpositive_n catMixedCase stMixedCase ["other"] 0
    [{ name := "Dynamite", artists := "a1", year := 2020 }]
    (by decide) (by decide) (by decide) (by decide)

/-- C6 (amended): `get_song_data` compares the input string *as given*
against the lowercased stored names (the caller is expected to pass an
already lowercased name); it returns the first stored row whose lowercased
name equals the input, and `None` exactly when no stored name lowercases to
the input. -/
theorem get_song_data_characterization (name : String) (data : List Song) :
    (∀ r, get_song_data name data = some r →
      str_lower r.name = name ∧
      ∃ i : Nat, data[i]? = some r ∧
        ∀ j : Nat, j < i → ∀ s : Song, data[j]? = some s → str_lower s.name ≠ name) ∧
    (get_song_data name data = none ↔ ∀ s ∈ data, str_lower s.name ≠ name) := by
  induction data with
  | nil =>
    constructor
    · intro r hr
      cases hr
    · simp [get_song_data]
  | cons a rest ih =>
    by_cases hp : str_lower a.name = name
    · have hfind : get_song_data name (a :: rest) = some a := by
        unfold get_song_data
        rw [List.find?_cons_of_pos]
        exact beq_iff_eq.mpr hp
      constructor
      · intro r hr
        rw [hfind] at hr
        cases hr
        refine ⟨hp, 0, List.getElem?_cons_zero, ?_⟩
        intro j hj
        omega
      · rw [hfind]
        constructor
        · intro hcontra
          cases hcontra
        · intro hall
          exact absurd hp (hall a (by simp))
    · have hfind : get_song_data name (a :: rest) = get_song_data name rest := by
        unfold get_song_data
        rw [List.find?_cons_of_neg]
        simpa using hp
      constructor
      · intro r hr
        rw [hfind] at hr
        rcases ih.1 r hr with ⟨heq, i, hi, hpre⟩
        refine ⟨heq, i + 1, by simpa using hi, ?_⟩
        intro j hj s hs
        cases j with
        | zero =>
          rw [List.getElem?_cons_zero] at hs
          cases hs
          exact hp
        | succ j' =>
          rw [List.getElem?_cons_succ] at hs
          exact hpre j' (by omega) s hs
      · rw [hfind, ih.2]
        constructor
        · intro hall s hs
          rcases List.mem_cons.mp hs with rfl | hs
          · exact hp
          · exact hall s hs
        · intro hall s hs
          exact hall s (List.mem_cons_of_mem _ hs)

/-- Catalog holding a single song whose stored name is the capital `"A"`. -/
def catUpperA : List Song :=
  [ { name := "A", artists := "x", year := 1, features := f15 0 } ]

/-- C6 counterexample: looking up the name `"A"` — whose lowercased form
equals the lowercased stored name `"A"` — returns `NotFound`, because the
input side is *not* lowercased before the comparison. -/
theorem c6_counterexample :
    get_song_data "A" catUpperA = none ∧
    str_lower "A" = str_lower (catUpperA.getD 0 defaultSong).name :=
  ⟨by decide, by decide⟩

/-- C6 witness: the characterization applied at a concrete lookup. -/
theorem c6_witness :
    get_song_data "zzz" catUpperA = none ↔ ∀ s ∈ catUpperA, str_lower s.name ≠ "zzz" :=
  (get_song_data_characterization "zzz" catUpperA).2

/-- C8: with the catalog's only entry named like the (resolvable) seed and
`n = 2`, every candidate is excluded, `rec_songs` stays empty, and
`pd.DataFrame([])[metadata_cols]` raises `KeyError` — the code fails with
an exception instead of returning the empty "as many as available"
result its own caller (line 121) expects. -/
theorem c8_all_excluded_keyerror :
    recommend_songs ["abc"] catSingle stSingle 2 = Except.error RecErr.keyError := by
  decide

/-- The running minimum of a fold is below its initial value. -/
theorem foldl_min_le_init : ∀ (xs : List ℚ) (x : ℚ), xs.foldl min x ≤ x
  | [], x => le_refl x
  | y :: ys, x => le_trans (foldl_min_le_init ys (min x y)) (min_le_left x y)

/-- The running minimum of a fold is below every list element. -/
theorem foldl_min_le_mem : ∀ (xs : List ℚ) (x : ℚ), ∀ y ∈ xs, xs.foldl min x ≤ y
  | y :: ys, x, z, hz => by
    rcases List.mem_cons.mp hz with rfl | hz
    · exact le_trans (foldl_min_le_init ys (min x z)) (min_le_right x z)
    · exact foldl_min_le_mem ys (min x y) z hz

/-- `list_min` is a lower bound of the list. -/
theorem list_min_le : ∀ (l : List ℚ), ∀ x ∈ l, list_min l ≤ x
  | y :: ys, x, hx => by
    unfold list_min
    rcases List.mem_cons.mp hx with rfl | hx
    · exact foldl_min_le_init ys x
    · exact foldl_min_le_mem ys y x hx

/-- The running maximum of a fold is above its initial value. -/
theorem le_foldl_max_init : ∀ (xs : List ℚ) (x : ℚ), x ≤ xs.foldl max x
  | [], x => le_refl x
  | y :: ys, x => le_trans (le_max_left x y) (le_foldl_max_init ys (max x y))

/-- The running maximum of a fold is above every list element. -/
theorem le_foldl_max_mem : ∀ (xs : List ℚ) (x : ℚ), ∀ y ∈ xs, y ≤ xs.foldl max x
  | y :: ys, x, z, hz => by
    rcases List.mem_cons.mp hz with rfl | hz
    · exact le_trans (le_max_right x z) (le_foldl_max_init ys (max x z))
    · exact le_foldl_max_mem ys (max x y) z hz

/-- `list_max` is an upper bound of the list. -/
theorem le_list_max : ∀ (l : List ℚ), ∀ x ∈ l, x ≤ list_max l
  | y :: ys, x, hx => by
    unfold list_max
    rcases List.mem_cons.mp hx with rfl | hx
    · exact le_foldl_max_init ys x
    · exact le_foldl_max_mem ys y x hx

/-- C9: if column `j` of the catalog has zero range (`min == max`),
fitting the two-stage normaliser divides by the zeros-handled scale `1`
rather than by the zero range, and every catalog row gets the defined
scaled value `0` in that column after both fitted stages. -/
theorem zero_range_column_fits_to_zero (rows : List (List ℚ)) (j : Nat)
    (hzr : list_min (column rows j) = list_max (column rows j)) :
    mm_fit_scale rows j = 1 ∧
    ∀ r ∈ rows, two_stage_value rows j (r.getD j 0) = 0 := by
  have hrange : mm_fit_data_range rows j = 0 := by
    unfold mm_fit_data_range
    rw [hzr]
    ring
  have hscale : mm_fit_scale rows j = 1 := by
    unfold mm_fit_scale handle_zeros
    rw [hrange]
    norm_num
  refine ⟨hscale, ?_⟩
  have hallmin : ∀ x ∈ column rows j, x = list_min (column rows j) := by
    intro x hx
    have h1 : list_min (column rows j) ≤ x := list_min_le _ x hx
    have h2 : x ≤ list_max (column rows j) := le_list_max _ x hx
    rw [← hzr] at h2
    exact le_antisymm h2 h1
  have hmmzero : ∀ x ∈ column rows j, mm_fit_value rows j x = 0 := by
    intro x hx
    unfold mm_fit_value mm_fit_min
    rw [hscale, hallmin x hx]
    ring
  have hncol : ∀ y ∈ normalized_column rows j, y = 0 := by
    intro y hy
    rcases List.mem_map.mp hy with ⟨x, hx, rfl⟩
    exact hmmzero x hx
  have hmean : std_fit_mean rows j = 0 := by
    unfold std_fit_mean
    rw [List.sum_eq_zero hncol]
    simp
  have hvar : std_fit_var rows j = 0 := by
    unfold std_fit_var
    rw [List.sum_eq_zero]
    · simp
    · intro y hy
      rcases List.mem_map.mp hy with ⟨x, hx, rfl⟩
      rw [hncol x hx, hmean]
      ring
  have hsc : std_fit_scale rows j = 1 := by
    unfold std_fit_scale
    rw [hvar]
    simp
  intro r hr
  have hmem : r.getD j 0 ∈ column rows j := List.mem_map_of_mem _ hr
  unfold two_stage_value
  rw [hmmzero _ hmem, hmean, hsc]
  norm_num

/-- C9 witness: a concrete two-row catalog whose single column is constant. -/
theorem c9_witness :
    mm_fit_scale [[2], [2]] 0 = 1 ∧
    ∀ r ∈ [[(2 : ℚ)], [2]], two_stage_value [[2], [2]] 0 (r.getD 0 0) = 0 :=
  zero_range_column_fits_to_zero [[2], [2]] 0 (by decide)

end
